import Mathlib

/-!
Verification of the streaming chat / tool-call orchestration loop of the
`ollama-chat` application (files `ollama_chat.py`, `ollama_client.py`,
`tools.py`), via a shallow embedding in Lean 4.

Python dicts that carry JSON data are embedded as an explicit `Json` value
type; insertion-ordered dict fields become association lists.  Stateful
methods become pure functions over explicit state (message history,
streaming flag, file store), and the GUI calls (`root.after`,
`add_to_current_message`) become an explicit list of display events.
-/

namespace OllamaChat

/-- JSON values as produced/consumed by `json.dumps` / `json.loads`.
Numbers are restricted to integers (the application only moves integer and
string data through this layer; floats do not appear in the persisted or
streamed records the claims are about). -/
inductive Json where
  | null
  | bool (b : Bool)
  | num (n : Int)
  | str (s : String)
  | arr (xs : List Json)
  | obj (fields : List (String × Json))

/-- Lowercase hexadecimal digit. -/
def hexDigit (n : Nat) : Char :=
  if n < 10 then Char.ofNat (48 + n) else Char.ofNat (87 + n)

/-- Four-digit lowercase hex, as in Python's `\uXXXX` escapes. -/
def hex4 (n : Nat) : String :=
  String.mk [hexDigit (n / 4096 % 16), hexDigit (n / 256 % 16),
             hexDigit (n / 16 % 16), hexDigit (n % 16)]

/-- Escape one character the way `json.dumps` (default `ensure_ascii=True`)
does inside a string literal; astral characters become surrogate pairs. -/
def escChar (c : Char) : String :=
  if c = '"' then "\\\""
  else if c = '\\' then "\\\\"
  else if c = '\n' then "\\n"
  else if c = '\t' then "\\t"
  else if c = '\r' then "\\r"
  else if c.toNat = 8 then "\\b"
  else if c.toNat = 12 then "\\f"
  else if c.toNat < 32 then "\\u" ++ hex4 c.toNat
  else if c.toNat < 127 then String.singleton c
  else if c.toNat ≤ 65535 then "\\u" ++ hex4 c.toNat
  else
    let v := c.toNat - 65536
    "\\u" ++ hex4 (55296 + v / 1024) ++ "\\u" ++ hex4 (56320 + v % 1024)

/-- A JSON string literal, `json.dumps`-style. -/
def jsonStringLit (s : String) : String :=
  "\"" ++ String.join (s.data.map escChar) ++ "\""

mutual

/-- `json.dumps(v)` with the default separators `", "` and `": "`. -/
def dumps : Json → String
  | .null => "null"
  | .bool b => if b then "true" else "false"
  | .num n => toString n
  | .str s => jsonStringLit s
  | .arr xs => "[" ++ dumpsArr xs ++ "]"
  | .obj fs => "\x7b" ++ dumpsObj fs ++ "\x7d"

def dumpsArr : List Json → String
  | [] => ""
  | [x] => dumps x
  | x :: xs => dumps x ++ ", " ++ dumpsArr xs

def dumpsObj : List (String × Json) → String
  | [] => ""
  | [(k, v)] => jsonStringLit k ++ ": " ++ dumps v
  | (k, v) :: fs => jsonStringLit k ++ ": " ++ dumps v ++ ", " ++ dumpsObj fs

end

/-- `n` copies of two spaces, the indentation used by `json.dumps(..., indent=2)`. -/
def indentStr (n : Nat) : String := String.join (List.replicate n "  ")

mutual

/-- `json.dumps(v, indent=2)` at nesting level `lvl`: with an `indent`
argument Python uses separators `","` and `": "` and puts every container
element on its own line (empty containers stay on one line). -/
def dumpsI (lvl : Nat) : Json → String
  | .null => "null"
  | .bool b => if b then "true" else "false"
  | .num n => toString n
  | .str s => jsonStringLit s
  | .arr [] => "[]"
  | .arr (x :: xs) =>
      "[\n" ++ dumpsIArr (lvl + 1) (x :: xs) ++ "\n" ++ indentStr lvl ++ "]"
  | .obj [] => "{}"
  | .obj (f :: fs) =>
      "\x7b\n" ++ dumpsIObj (lvl + 1) (f :: fs) ++ "\n" ++ indentStr lvl ++ "\x7d"

def dumpsIArr (lvl : Nat) : List Json → String
  | [] => ""
  | [x] => indentStr lvl ++ dumpsI lvl x
  | x :: y :: ys =>
      indentStr lvl ++ dumpsI lvl x ++ ",\n" ++ dumpsIArr lvl (y :: ys)

def dumpsIObj (lvl : Nat) : List (String × Json) → String
  | [] => ""
  | [(k, v)] => indentStr lvl ++ jsonStringLit k ++ ": " ++ dumpsI lvl v
  | (k, v) :: f :: fs =>
      indentStr lvl ++ jsonStringLit k ++ ": " ++ dumpsI lvl v ++ ",\n" ++
        dumpsIObj lvl (f :: fs)

end

/-- `json.dumps(v, indent=2)` as called in `tools.py`. -/
def dumpsIndent2 (v : Json) : String := dumpsI 0 v

/-! ## Data model: messages, tool calls, stream fragments -/

/-- The `"function"` sub-dict of a tool call produced by the model:
`{"name": ..., "arguments": {...}}`.  `Option` marks keys that may be
absent, matching the `.get(key, default)` accesses in `ollama_chat.py`. -/
structure FunctionInfo where
  name : Option String
  arguments : Option (List (String × Json))

/-- A tool-call request dict as it appears in a fragment's
`message.tool_calls` list; `ollama_chat.py` reads only its
`"function"` key (via `tool_call.get("function", {})`). -/
structure ToolCall where
  function : Option FunctionInfo

/-- The dict-valued `"message"` field of a streamed chunk:
`{content?: str, tool_calls?: [...]}`. -/
structure ChunkMsg where
  content : Option String
  tool_calls : Option (List ToolCall)

/-- One parsed line of the streamed `/api/chat` response, plus the error
fragment `chat_stream` itself fabricates.  In the Python dicts the
`"message"` key holds a dict on normal chunks and a string on the
fabricated error chunk; since `stream_response` checks `chunk.get("error")`
first and `break`s, the two uses never mix, and we model them as the two
fields `message` (dict case) and `errMessage` (string case). -/
structure Chunk where
  error : Bool
  errMessage : Option String
  message : Option ChunkMsg
  done : Bool

/-- A conversation message dict: `{"role": ..., "content": ...}` with an
optional `"tool_calls"` key (present only on the assistant message that
carried tool calls). -/
structure Message where
  role : String
  content : String
  tool_calls : Option (List ToolCall) := none

/-! ## Transport Client (`ollama_client.py`): `chat_stream` -/

/-- One line delivered by `response.iter_lines()`: empty (falsy, skipped by
`if line:`), a line that `json.loads` rejects, or a line decoding to a
chunk. -/
inductive RawLine where
  | empty
  | malformed (text : String)
  | valid (chunk : Chunk)

/-- Outcome of `requests.post(url, json=payload, stream=True)` followed by
`response.raise_for_status()`: either a `RequestException` (connection
refused, timeout, non-2xx status) carrying `str(e)`, or a body of lines. -/
inductive HttpOutcome where
  | requestError (e : String)
  | ok (lines : List RawLine)

/-- The fabricated terminal fragment
`{"error": True, "message": f"Error communicating with Ollama: {str(e)}"}`. -/
def transportErrorChunk (e : String) : Chunk :=
  { error := true
    errMessage := some ("Error communicating with Ollama: " ++ e)
    message := none
    done := false }

/-- `OllamaClient.chat_stream`, as the list of chunks the generator yields
for a given network outcome: on a `RequestException` a single error
fragment; otherwise each nonempty line that decodes is yielded and a line
that fails to decode is skipped (`continue`) without ending the stream. -/
def chat_stream : HttpOutcome → List Chunk
  | .requestError e => [transportErrorChunk e]
  | .ok lines =>
      lines.filterMap fun
        | .empty => none
        | .malformed _ => none
        | .valid c => some c

/-! ## Tool Registry (`tools.py`) -/

/-- A registered tool's handler.  In Python the handler is an arbitrary
callable invoked as `tool_function(**arguments)` and its return value is
passed to `json.dumps(result, indent=2)`; we model the combined call as
returning either a serializable value or the message `str(e)` of a raised
exception (a non-serializable return raising inside `json.dumps` is covered
by the same `except` arm and hence by the `Except.error` case). -/
def Handler : Type := List (String × Json) → Except String Json

/-- The per-name record stored by `register_tool` (the `"name"`,
`"description"`, `"function"`, `"parameters"` dict). -/
structure ToolInfo where
  name : String
  description : String
  function : Handler
  parameters : Json

/-- `self.tools`: an insertion-ordered dict from tool name to record. -/
structure ToolRegistry where
  tools : List (String × ToolInfo)

/-- Python dict assignment `d[k] = v`: overwrite in place if the key
exists, else append (insertion order is preserved). -/
def dictSet (d : List (String × ToolInfo)) (k : String) (v : ToolInfo) :
    List (String × ToolInfo) :=
  if d.any (fun p => p.1 = k) then
    d.map (fun p => if p.1 = k then (k, v) else p)
  else d ++ [(k, v)]

/-- Python dict lookup `k in d` / `d[k]` as an optional lookup. -/
def dictGet (d : List (String × ToolInfo)) (k : String) : Option ToolInfo :=
  match d.find? (fun p => p.1 = k) with
  | some p => some p.2
  | none => none

/-- `ToolRegistry.register_tool`. -/
def register_tool (reg : ToolRegistry) (name description : String)
    (function : Handler) (parameters : Json) : ToolRegistry :=
  ⟨dictSet reg.tools name ⟨name, description, function, parameters⟩⟩

/-- The parameter schema of the default crypto tool. -/
def cryptoParameters : Json :=
  .obj [("type", .str "object"), ("properties", .obj []), ("required", .arr [])]

/-- `ToolRegistry.__init__` followed by `_register_default_tools`: the
registry holding exactly the `get_top_cryptocurrencies` tool.  The
handler's behaviour depends on the external CoinGecko endpoint, so the
registry is parameterised by it. -/
def defaultRegistry (cryptoHandler : Handler) : ToolRegistry :=
  register_tool ⟨[]⟩ "get_top_cryptocurrencies"
    "Get the top 10 cryptocurrencies by market cap with current prices and 24h change"
    cryptoHandler cryptoParameters

/-- The payload `json.dumps({"error": f"Tool '{tool_name}' not found"})`. -/
def toolNotFoundPayload (tool_name : String) : String :=
  dumps (.obj [("error", .str ("Tool '" ++ tool_name ++ "' not found"))])

/-- The payload `json.dumps({"error": f"Error executing tool: {str(e)}"})`. -/
def toolExecErrorPayload (e : String) : String :=
  dumps (.obj [("error", .str ("Error executing tool: " ++ e))])

/-- `ToolRegistry.execute_tool`: unknown names and raising handlers both
produce a structured error payload; a successful handler's value is
serialized with `json.dumps(result, indent=2)`.  Total: no exception
escapes this boundary. -/
def execute_tool (reg : ToolRegistry) (tool_name : String)
    (arguments : List (String × Json)) : String :=
  match dictGet reg.tools tool_name with
  | none => toolNotFoundPayload tool_name
  | some info =>
      match info.function arguments with
      | .ok result => dumpsIndent2 result
      | .error e => toolExecErrorPayload e

/-! ## Conversation Orchestrator (`ollama_chat.py`) -/

/-- A GUI update posted through `root.after(0, self.add_to_current_message, ...)`:
we record the text and the tag it is inserted with. -/
inductive DisplayEvent where
  | content (text : String)
  | errorNote (text : String)
  | toolNote (text : String)
  | codeNote (text : String)

/-- Python `str(x)` on an optional string (`None` prints as `"None"`),
as interpolated by the f-string `f"\n[Error: {chunk.get('message')}]"`. -/
def pyStr : Option String → String
  | none => "None"
  | some s => s

/-- The error annotation text `stream_response` and `stream_final_response`
display for an error chunk. -/
def errNoteText (c : Chunk) : String :=
  "\n[Error: " ++ pyStr c.errMessage ++ "]"

/-- The loop state of `stream_response`: the accumulating `response_text`
and `tool_calls` locals, plus the display events posted so far and whether
the loop `break`ed on an error chunk. -/
structure StreamAcc where
  response_text : String
  tool_calls : List ToolCall
  display : List DisplayEvent
  errored : Bool

/-- The initial loop state (`response_text = ""`, `tool_calls = []`). -/
def initAcc : StreamAcc := ⟨"", [], [], false⟩

/-- The loop body of `stream_response` for one non-error chunk: a nonempty
`message.content` is appended to `response_text` and forwarded for display;
a nonempty `message.tool_calls` list is `extend`ed onto `tool_calls`. -/
def procStep (c : Chunk) (acc : StreamAcc) : StreamAcc :=
  match c.message with
  | none => acc
  | some m =>
      let acc :=
        match m.content with
        | some s =>
            if s.isEmpty then acc
            else { acc with
                    response_text := acc.response_text ++ s
                    display := acc.display ++ [.content s] }
        | none => acc
      match m.tool_calls with
      | some tcs =>
          if tcs.isEmpty then acc
          else { acc with tool_calls := acc.tool_calls ++ tcs }
      | none => acc

/-- The `for chunk in self.client.chat_stream(...)` loop of
`stream_response`: an error chunk displays the error annotation and
`break`s; otherwise the chunk is processed and `done=True` `break`s. -/
def processChunks : List Chunk → StreamAcc → StreamAcc
  | [], acc => acc
  | c :: rest, acc =>
      if c.error then
        { acc with display := acc.display ++ [.errorNote (errNoteText c)], errored := true }
      else
        let acc := procStep c acc
        if c.done then acc else processChunks rest acc

/-- The content deltas of a stream in arrival order (every
`message.content` value, with absent or empty contents contributing
nothing to the concatenation). -/
def contentDeltas (chunks : List Chunk) : List String :=
  chunks.filterMap (fun c => c.message.bind (fun m => m.content))

/-- The tool-call requests carried by one chunk (`message.tool_calls`,
empty when the key is absent). -/
def chunkToolCalls (c : Chunk) : List ToolCall :=
  match c.message with
  | none => []
  | some m => (m.tool_calls).getD []

/-- The name/argument pair `handle_tool_calls` extracts from one tool call:
`function_info = tool_call.get("function", {})`,
`tool_name = function_info.get("name", "unknown")`,
`arguments = function_info.get("arguments", {})`. -/
def callNameArgs (tc : ToolCall) : String × List (String × Json) :=
  match tc.function with
  | none => ("unknown", [])
  | some fi => (fi.name.getD "unknown", fi.arguments.getD [])

/-- The tool-result message one dispatch appends:
`{"role": "tool", "content": result}`. -/
def toolResultMsg (reg : ToolRegistry) (tc : ToolCall) : Message :=
  let (tool_name, arguments) := callNameArgs tc
  { role := "tool", content := execute_tool reg tool_name arguments }

/-- The display events one dispatch posts (`[Calling tool: ...]` with the
`tool` tag, then the result with the `code` tag). -/
def toolCallDisplay (reg : ToolRegistry) (tc : ToolCall) : List DisplayEvent :=
  let (tool_name, arguments) := callNameArgs tc
  [.toolNote ("\n\n[Calling tool: " ++ tool_name ++ "]"),
   .codeNote ("\n" ++ execute_tool reg tool_name arguments ++ "\n")]

/-- `handle_tool_calls`: appends the assistant message carrying the
accumulated text and tool-call list, then for each tool call in order
executes it and appends one tool-result message; returns the new history,
the dispatched (name, arguments) pairs in execution order, and the display
events.  The follow-up `stream_final_response` thread is then started with
this extended history. -/
def handle_tool_calls (reg : ToolRegistry) (messages : List Message)
    (tool_calls : List ToolCall) (assistant_message : String) :
    List Message × List (String × List (String × Json)) × List DisplayEvent :=
  let messages := messages ++
    [{ role := "assistant", content := assistant_message,
       tool_calls := some tool_calls }]
  (messages ++ tool_calls.map (toolResultMsg reg),
   tool_calls.map callNameArgs,
   tool_calls.flatMap (toolCallDisplay reg))

/-- The `for chunk in self.client.chat_stream(...)` loop of
`stream_final_response`: identical fragment handling for content and
errors, but `message.tool_calls` is never read. -/
def processFinalChunks : List Chunk → String → List DisplayEvent →
    String × List DisplayEvent
  | [], text, disp => (text, disp)
  | c :: rest, text, disp =>
      if c.error then (text, disp ++ [.errorNote (errNoteText c)])
      else
        let (text, disp) :=
          match c.message with
          | some m =>
              match m.content with
              | some s =>
                  if s.isEmpty then (text, disp)
                  else (text ++ s, disp ++ [.content s])
              | none => (text, disp)
          | none => (text, disp)
        if c.done then (text, disp) else processFinalChunks rest text disp

/-- The observable outcome of one user turn. -/
structure TurnResult where
  /-- `self.messages` after the turn. -/
  messages : List Message
  /-- The (name, arguments) pairs passed to `execute_tool`, in dispatch
  order. -/
  dispatches : List (String × List (String × Json))
  /-- The history snapshot passed to the second `chat_stream` request, if
  one is opened. -/
  secondStreamInput : Option (List Message)
  /-- How many `chat_stream` requests the turn issued. -/
  streamsOpened : Nat
  /-- Display events posted during the turn (initial stream, tool
  dispatch, final stream). -/
  display : List DisplayEvent

/-- One user turn from the start of `stream_response`, given the fragment
sequences the two `chat_stream` calls would yield (`chunks2` is consumed
only if a follow-up stream is opened).  Mirrors the control flow of
`stream_response` → (`handle_tool_calls` → `stream_final_response` |
direct finish): after the fragment loop, if any tool calls accumulated
they are dispatched and a second stream runs to completion; otherwise the
assistant message is appended only when `response_text` is nonempty.
Either way the turn ends in `finish_streaming` (back to Idle). -/
def run_turn (reg : ToolRegistry) (messages : List Message)
    (chunks1 chunks2 : List Chunk) : TurnResult :=
  if (processChunks chunks1 initAcc).tool_calls.isEmpty then
    { messages :=
        if (processChunks chunks1 initAcc).response_text.isEmpty then
          messages
        else messages ++
          [{ role := "assistant",
             content := (processChunks chunks1 initAcc).response_text }]
      dispatches := []
      secondStreamInput := none
      streamsOpened := 1
      display := (processChunks chunks1 initAcc).display }
  else
    { messages :=
        if (processFinalChunks chunks2 "" []).1.isEmpty then
          (handle_tool_calls reg messages
            (processChunks chunks1 initAcc).tool_calls
            (processChunks chunks1 initAcc).response_text).1
        else
          (handle_tool_calls reg messages
            (processChunks chunks1 initAcc).tool_calls
            (processChunks chunks1 initAcc).response_text).1 ++
          [{ role := "assistant",
             content := (processFinalChunks chunks2 "" []).1 }]
      dispatches :=
        (handle_tool_calls reg messages
          (processChunks chunks1 initAcc).tool_calls
          (processChunks chunks1 initAcc).response_text).2.1
      secondStreamInput :=
        some (handle_tool_calls reg messages
          (processChunks chunks1 initAcc).tool_calls
          (processChunks chunks1 initAcc).response_text).1
      streamsOpened := 2
      display :=
        (processChunks chunks1 initAcc).display ++
        (handle_tool_calls reg messages
          (processChunks chunks1 initAcc).tool_calls
          (processChunks chunks1 initAcc).response_text).2.2 ++
        [.content "\n"] ++ (processFinalChunks chunks2 "" []).2 }

/-! ## `send_message`: submission guards -/

/-- The application state `send_message` reads and writes: the input
widget's text, the selected model (`self.current_model`, `None` before one
is picked), the model combo box value (`self.model_var.get()`, `""` when
unset), the busy flag and the history. -/
structure AppState where
  input_text : String
  current_model : Option String
  model_var : String
  is_streaming : Bool
  messages : List Message

/-- Python truthiness of `self.current_model` (`None` and `""` are falsy). -/
def modelTruthy : Option String → Bool
  | none => false
  | some s => !s.isEmpty

/-- What a call to `send_message` did. -/
inductive SendOutcome where
  /-- `if not message: return` -/
  | rejectedEmptyInput
  /-- `messagebox.showwarning("No Model", ...); return` -/
  | rejectedNoModel
  /-- `messagebox.showinfo("Please Wait", ...); return` -/
  | rejectedBusy
  /-- The user message was appended and the streaming thread started. -/
  | started (message : String)

/-- `True` exactly on the `started` outcome (the only path that issues a
network request, via the `stream_response` thread). -/
def SendOutcome.isStarted : SendOutcome → Bool
  | .started _ => true
  | _ => false

/-- `OllamaChatApp.send_message` up to the point the streaming thread is
spawned.  Guard order as in the source: empty (stripped) input first, then
the model fallback `self.current_model = self.model_var.get()` and check,
then the `is_streaming` busy check; only then is the input cleared, the
user message appended and the busy flag set. -/
def send_message (st : AppState) : AppState × SendOutcome :=
  let message := st.input_text.trim
  if message.isEmpty then (st, .rejectedEmptyInput)
  else
    let st :=
      if modelTruthy st.current_model then st
      else { st with current_model := some st.model_var }
    if !modelTruthy st.current_model then (st, .rejectedNoModel)
    else if st.is_streaming then (st, .rejectedBusy)
    else
      ({ st with
          input_text := ""
          messages := st.messages ++ [{ role := "user", content := message }]
          is_streaming := true },
       .started message)

/-! ## Persistence (`ChatHistory`) -/

/-- The file store, path ↦ JSON document.  `json.dump` to a file followed
by `json.load` from it is the identity on serializable values, so the
persistence boundary is modelled at the JSON-value level: writing a file
records the document value, reading returns it. -/
abbrev Store : Type := List (String × Json)

/-- Write (or overwrite) a file in the store: the newest write for a path
is kept in front and shadows older ones. -/
def storeWrite (store : Store) (path : String) (doc : Json) : Store :=
  (path, doc) :: store

/-- Read a file from the store (the most recent write for the path). -/
def storeRead (store : Store) (path : String) : Option Json :=
  match store.find? (fun p => p.1 = path) with
  | some p => some p.2
  | none => none

/-- `ChatHistory.save_chat`: builds
`{"model": model, "timestamp": timestamp, "messages": messages}` and
`json.dump`s it to
`history_dir/chat_{model.replace(':', '_')}_{timestamp}.json`; returns the
filepath.  `timestamp` (`datetime.now().strftime(...)`) is a parameter. -/
def save_chat (store : Store) (history_dir : String) (messages : List Json)
    (model : String) (timestamp : String) : Store × String :=
  let filename :=
    "chat_" ++ (model.replace ":" "_") ++ "_" ++ timestamp ++ ".json"
  let filepath := history_dir ++ "/" ++ filename
  let data := Json.obj
    [("model", .str model), ("timestamp", .str timestamp),
     ("messages", .arr messages)]
  (storeWrite store filepath data, filepath)

/-- `ChatHistory.load_chat`: `json.load` of the file at `filepath`
(`none` models the `open` / `json.load` call raising for a missing or
unreadable file). -/
def load_chat (store : Store) (filepath : String) : Option Json :=
  storeRead store filepath

/-- Python `data.get(key)` on a decoded JSON object. -/
def jsonGet (v : Json) (key : String) : Option Json :=
  match v with
  | .obj fields =>
      match fields.find? (fun p => p.1 = key) with
      | some p => some p.2
      | none => none
  | _ => none

/-! ## Helper definitions and lemmas about the fragment loop -/

/-- The content delta one chunk contributes (absent content contributes
the empty string). -/
def deltaOf (c : Chunk) : String :=
  (c.message.bind (fun m => m.content)).getD ""

/-- Concatenation of a list of strings, in order. -/
def concatAll : List String → String
  | [] => ""
  | s :: l => s ++ concatAll l

/-! ## Shared concrete inputs for witnesses and counterexamples -/

/-- A handler that succeeds with `null` (a stand-in for a reachable
CoinGecko endpoint whose exact answer is irrelevant). -/
def trivialHandler : Handler := fun _ => .ok .null

/-- A handler that raises (a stand-in for the CoinGecko request failing). -/
def failingHandler : Handler := fun _ => .error "boom"

/-- A well-formed tool call naming the registered crypto tool. -/
def cryptoCall : ToolCall :=
  ⟨some ⟨some "get_top_cryptocurrencies", some []⟩⟩

/-- A fragment carrying one tool call and `done=true`. -/
def cryptoCallDoneChunk : Chunk :=
  ⟨false, none, some ⟨none, some [cryptoCall]⟩, true⟩

/-- A fragment carrying one tool call, not yet done. -/
def cryptoCallChunk : Chunk :=
  ⟨false, none, some ⟨none, some [cryptoCall]⟩, false⟩

/-- An error fragment as fabricated by the transport client. -/
def boomErrorChunk : Chunk := transportErrorChunk "boom"

/-- A fragment with only `done=true` (no content, no tool calls). -/
def doneOnlyChunk : Chunk := ⟨false, none, none, true⟩


theorem concatAll_contentDeltas (l : List Chunk) :
    concatAll (contentDeltas l) = concatAll (l.map deltaOf) := by
  induction l with
  | nil => rfl
  | cons c rest ih =>
      simp only [contentDeltas, List.filterMap_cons, List.map_cons]
      cases h : c.message.bind (fun m => m.content) with
      | none =>
          simp only [concatAll, deltaOf, h, Option.getD_none, String.empty_append]
          exact ih
      | some s =>
          simp only [concatAll, deltaOf, h, Option.getD_some]
          rw [show contentDeltas rest = List.filterMap
                (fun c => c.message.bind (fun m => m.content)) rest from rfl] at ih
          rw [ih]

theorem procStep_text (c : Chunk) (acc : StreamAcc) :
    (procStep c acc).response_text = acc.response_text ++ deltaOf c := by
  unfold procStep deltaOf
  cases hm : c.message with
  | none => simp
  | some m =>
      obtain ⟨mc, mtc⟩ := m
      cases mc with
      | none =>
          cases mtc with
          | none => simp
          | some tcs => by_cases h : tcs.isEmpty <;> simp [h]
      | some s =>
          by_cases hs : s.isEmpty
          · have hs' : s = "" := (String.isEmpty_iff s).1 hs
            subst hs'
            cases mtc with
            | none => simp [hs]
            | some tcs => by_cases h : tcs.isEmpty <;> simp [hs, h]
          · cases mtc with
            | none => simp [hs]
            | some tcs => by_cases h : tcs.isEmpty <;> simp [hs, h]

theorem procStep_calls (c : Chunk) (acc : StreamAcc) :
    (procStep c acc).tool_calls = acc.tool_calls ++ chunkToolCalls c := by
  unfold procStep chunkToolCalls
  cases hm : c.message with
  | none => simp
  | some m =>
      obtain ⟨mc, mtc⟩ := m
      cases mc with
      | none =>
          cases mtc with
          | none => simp
          | some tcs =>
              by_cases h : tcs.isEmpty
              · simp [h, List.isEmpty_iff.1 h]
              · simp [h]
      | some s =>
          by_cases hs : s.isEmpty
          · cases mtc with
            | none => simp [hs]
            | some tcs =>
                by_cases h : tcs.isEmpty
                · simp [hs, h, List.isEmpty_iff.1 h]
                · simp [hs, h]
          · cases mtc with
            | none => simp [hs]
            | some tcs =>
                by_cases h : tcs.isEmpty
                · simp [hs, h, List.isEmpty_iff.1 h]
                · simp [hs, h]

/-- Processing a prefix of chunks none of which errors or is marked done
just folds the loop body over them. -/
theorem processChunks_clean_append (pre rest : List Chunk) (acc : StreamAcc)
    (h : ∀ c ∈ pre, c.error = false ∧ c.done = false) :
    processChunks (pre ++ rest) acc =
      processChunks rest (pre.foldl (fun a c => procStep c a) acc) := by
  induction pre generalizing acc with
  | nil => simp
  | cons hd tl ih =>
      obtain ⟨he, hd'⟩ := h hd (by simp)
      simp only [List.cons_append, processChunks, he, Bool.false_eq_true,
        if_false, hd', List.foldl_cons]
      exact ih _ (fun c hc => h c (by simp [hc]))

theorem foldl_procStep_text (l : List Chunk) (acc : StreamAcc) :
    (l.foldl (fun a c => procStep c a) acc).response_text =
      acc.response_text ++ concatAll (l.map deltaOf) := by
  induction l generalizing acc with
  | nil => simp [concatAll]
  | cons c rest ih =>
      simp only [List.foldl_cons, List.map_cons, concatAll, ih,
        procStep_text, String.append_assoc]

theorem foldl_procStep_calls (l : List Chunk) (acc : StreamAcc) :
    (l.foldl (fun a c => procStep c a) acc).tool_calls =
      acc.tool_calls ++ l.flatMap chunkToolCalls := by
  induction l generalizing acc with
  | nil => simp
  | cons c rest ih =>
      simp only [List.foldl_cons, List.flatMap_cons, ih, procStep_calls,
        List.append_assoc]

/-- A fragment sequence that is terminated by its last chunk (no earlier
error or done marker, last chunk not an error) is processed by folding the
loop body over all of it. -/
theorem processChunks_terminated (body : List Chunk) (last : Chunk)
    (hbody : ∀ c ∈ body, c.error = false ∧ c.done = false)
    (hle : last.error = false) :
    processChunks (body ++ [last]) initAcc =
      (body ++ [last]).foldl (fun a c => procStep c a) initAcc := by
  rw [processChunks_clean_append body [last] initAcc hbody, List.foldl_append]
  simp only [processChunks, hle, Bool.false_eq_true, if_false, List.foldl_cons,
    List.foldl_nil]
  cases last.done <;> simp [processChunks]

theorem processChunks_terminated_text (body : List Chunk) (last : Chunk)
    (hbody : ∀ c ∈ body, c.error = false ∧ c.done = false)
    (hle : last.error = false) :
    (processChunks (body ++ [last]) initAcc).response_text =
      concatAll (contentDeltas (body ++ [last])) := by
  rw [processChunks_terminated body last hbody hle, foldl_procStep_text,
    concatAll_contentDeltas]
  simp [initAcc, String.empty_append]

theorem processChunks_terminated_calls (body : List Chunk) (last : Chunk)
    (hbody : ∀ c ∈ body, c.error = false ∧ c.done = false)
    (hle : last.error = false) :
    (processChunks (body ++ [last]) initAcc).tool_calls =
      (body ++ [last]).flatMap chunkToolCalls := by
  rw [processChunks_terminated body last hbody hle, foldl_procStep_calls]
  simp [initAcc]

theorem flatMap_eq_nil {α β : Type} (f : α → List β) (l : List α)
    (h : ∀ a ∈ l, f a = []) : l.flatMap f = [] := by
  induction l with
  | nil => rfl
  | cons a rest ih =>
      simp only [List.flatMap_cons, h a (by simp)]
      exact ih (fun a ha => h a (by simp [ha]))

theorem modelTruthy_some (s : String) :
    modelTruthy (some s) = !s.isEmpty := rfl

/-- `run_turn` when the initial stream accumulated no tool calls: the
direct-finish branch. -/
theorem run_turn_of_no_tool_calls (reg : ToolRegistry)
    (messages : List Message) (chunks1 chunks2 : List Chunk)
    (h : (processChunks chunks1 initAcc).tool_calls.isEmpty = true) :
    run_turn reg messages chunks1 chunks2 =
      { messages :=
          if (processChunks chunks1 initAcc).response_text.isEmpty then
            messages
          else messages ++
            [{ role := "assistant",
               content := (processChunks chunks1 initAcc).response_text }]
        dispatches := []
        secondStreamInput := none
        streamsOpened := 1
        display := (processChunks chunks1 initAcc).display } := by
  unfold run_turn
  exact if_pos h

/-- `run_turn` when the initial stream accumulated tool calls: the
dispatch-and-resume branch. -/
theorem run_turn_of_tool_calls (reg : ToolRegistry)
    (messages : List Message) (chunks1 chunks2 : List Chunk)
    (h : (processChunks chunks1 initAcc).tool_calls.isEmpty = false) :
    run_turn reg messages chunks1 chunks2 =
      { messages :=
          if (processFinalChunks chunks2 "" []).1.isEmpty then
            (handle_tool_calls reg messages
              (processChunks chunks1 initAcc).tool_calls
              (processChunks chunks1 initAcc).response_text).1
          else
            (handle_tool_calls reg messages
              (processChunks chunks1 initAcc).tool_calls
              (processChunks chunks1 initAcc).response_text).1 ++
            [{ role := "assistant",
               content := (processFinalChunks chunks2 "" []).1 }]
        dispatches :=
          (handle_tool_calls reg messages
            (processChunks chunks1 initAcc).tool_calls
            (processChunks chunks1 initAcc).response_text).2.1
        secondStreamInput :=
          some (handle_tool_calls reg messages
            (processChunks chunks1 initAcc).tool_calls
            (processChunks chunks1 initAcc).response_text).1
        streamsOpened := 2
        display :=
          (processChunks chunks1 initAcc).display ++
          (handle_tool_calls reg messages
            (processChunks chunks1 initAcc).tool_calls
            (processChunks chunks1 initAcc).response_text).2.2 ++
          [.content "\n"] ++ (processFinalChunks chunks2 "" []).2 } := by
  unfold run_turn
  exact if_neg (by rw [h]; exact Bool.false_ne_true)

/-! ## Claim theorems -/

/-- C4: for every call to `chat_stream` whose underlying HTTP request
fails (connection refused, timeout, non-2xx status — i.e. the
`requests.post` / `raise_for_status` pair raises a `RequestException`
carrying message `e`), the iterator yields exactly one terminal fragment,
that fragment carries the error marker (`error=True`), and the sequence
ends there.  No exception crosses the boundary: `chat_stream` is a total
function of the network outcome. -/
theorem chat_stream_request_failure_yields_single_error_fragment
    (e : String) :
    chat_stream (.requestError e) = [transportErrorChunk e] ∧
    (transportErrorChunk e).error = true ∧
    (chat_stream (.requestError e)).length = 1 :=
  ⟨rfl, rfl, rfl⟩

/-- C5: a response line that fails to decode as JSON is skipped and the
stream continues: the fragments `chat_stream` yields for a body containing
a malformed line are exactly those for the body with the line removed, so
every subsequent valid fragment is still yielded and the malformed line
does not terminate the sequence. -/
theorem chat_stream_skips_malformed_line (pre post : List RawLine)
    (t : String) :
    chat_stream (.ok (pre ++ .malformed t :: post)) =
      chat_stream (.ok pre) ++ chat_stream (.ok post) := by
  simp [chat_stream]

/-- C6: `execute_tool` always returns a string and never raises.  If the
name is not registered it returns the structured payload
`json.dumps({"error": f"Tool '{name}' not found"})`; if the registered
handler raises, the exception is caught at this boundary and converted to
`json.dumps({"error": f"Error executing tool: {str(e)}"})`.  (Totality —
"never raises" — holds by construction of the embedding: `execute_tool`
is a total Lean function.) -/
theorem execute_tool_returns_structured_error_payloads
    (reg : ToolRegistry) (tool_name : String)
    (arguments : List (String × Json)) :
    (dictGet reg.tools tool_name = none →
      execute_tool reg tool_name arguments = toolNotFoundPayload tool_name) ∧
    (∀ info e, dictGet reg.tools tool_name = some info →
      info.function arguments = .error e →
      execute_tool reg tool_name arguments = toolExecErrorPayload e) := by
  constructor
  · intro h
    unfold execute_tool
    rw [h]
  · intro info e h1 h2
    simp only [execute_tool, h1, h2]

/-- Witness for C6: in the default registry, the unregistered name
`"unknown"` yields the not-found payload, and a raising handler for the
registered crypto tool yields the execution-error payload. -/
theorem execute_tool_error_payload_witness :
    execute_tool (defaultRegistry trivialHandler) "unknown" [] =
      toolNotFoundPayload "unknown" ∧
    execute_tool (defaultRegistry failingHandler)
      "get_top_cryptocurrencies" [] = toolExecErrorPayload "boom" :=
  ⟨(execute_tool_returns_structured_error_payloads
      (defaultRegistry trivialHandler) "unknown" []).1 rfl,
   (execute_tool_returns_structured_error_payloads
      (defaultRegistry failingHandler) "get_top_cryptocurrencies" []).2
      _ "boom" rfl rfl⟩

/-- C9: loading the file produced by `save_chat` yields a record whose
`messages` field is the saved message list, in order, content-equal, and
whose `model` field is the saved model.  (`json.dump` to a file followed
by `json.load` is the identity on serializable values, so the file store
is modelled at the JSON-value level.) -/
theorem load_after_save_roundtrip (store : Store) (dir : String)
    (msgs : List Json) (model ts : String) :
    load_chat (save_chat store dir msgs model ts).1
        (save_chat store dir msgs model ts).2 =
      some (.obj [("model", .str model), ("timestamp", .str ts),
                  ("messages", .arr msgs)]) ∧
    jsonGet (.obj [("model", .str model), ("timestamp", .str ts),
                   ("messages", .arr msgs)]) "messages" = some (.arr msgs) ∧
    jsonGet (.obj [("model", .str model), ("timestamp", .str ts),
                   ("messages", .arr msgs)]) "model" = some (.str model) := by
  refine ⟨?_, by simp [jsonGet], by simp [jsonGet]⟩
  simp [load_chat, save_chat, storeRead, storeWrite]

/-- C10: a tool-call request that lacks a `function` field, or whose
`function` dict lacks a `name` field, is still dispatched: the extracted
name defaults to `"unknown"`, which is not registered, so exactly one
tool-result message containing the not-found payload for `"unknown"` is
appended, and nothing raises (`handle_tool_calls` is total). -/
theorem malformed_tool_call_yields_unknown_error_result
    (h : Handler) (msgs : List Message) (text : String) (tc : ToolCall)
    (hmal : tc.function = none ∨
            ∃ fi, tc.function = some fi ∧ fi.name = none) :
    toolResultMsg (defaultRegistry h) tc =
      { role := "tool", content := toolNotFoundPayload "unknown" } ∧
    (handle_tool_calls (defaultRegistry h) msgs [tc] text).1 =
      msgs ++
        [{ role := "assistant", content := text, tool_calls := some [tc] },
         { role := "tool", content := toolNotFoundPayload "unknown" }] := by
  have hname : (callNameArgs tc).1 = "unknown" := by
    rcases hmal with h1 | ⟨fi, h1, h2⟩
    · simp [callNameArgs, h1]
    · simp [callNameArgs, h1, h2]
  have hres : toolResultMsg (defaultRegistry h) tc =
      { role := "tool", content := toolNotFoundPayload "unknown" } := by
    unfold toolResultMsg
    rw [show callNameArgs tc = ("unknown", (callNameArgs tc).2) from
      Prod.ext hname rfl]
    rfl
  refine ⟨hres, ?_⟩
  unfold handle_tool_calls
  simp [hres]

/-- Counterexample for C1 as stated: the stream `[{done: true}]` ends
with `done=true` and contains no tool-call fragments, yet processing it
appends no assistant message at all (the source guards the append with
`if response_text:`, and the concatenation of content deltas is empty),
not "exactly one". -/
theorem done_only_stream_appends_no_assistant_message :
    doneOnlyChunk.done = true ∧
    chunkToolCalls doneOnlyChunk = [] ∧
    contentDeltas [doneOnlyChunk] = [] ∧
    (run_turn (defaultRegistry trivialHandler) [] [doneOnlyChunk]
      []).messages = [] :=
  ⟨rfl, rfl, rfl, rfl⟩

/-- C1 (amended): for every fragment sequence terminated by its final
`done=true` fragment (no earlier fragment is done or an error, as in the
data model where those terminate the sequence) and containing no
tool-call fragments, processing the stream appends exactly one assistant
message whose content is the concatenation of all content deltas in
arrival order — when that concatenation is nonempty; when it is empty, no
assistant message is appended. -/
theorem stream_response_appends_assistant_message_iff_content_nonempty
    (reg : ToolRegistry) (msgs : List Message) (chunks2 : List Chunk)
    (body : List Chunk) (last : Chunk)
    (hbody : ∀ c ∈ body, c.error = false ∧ c.done = false)
    (hle : last.error = false) (_hld : last.done = true)
    (hnt : ∀ c ∈ body ++ [last], chunkToolCalls c = []) :
    (run_turn reg msgs (body ++ [last]) chunks2).messages =
      if (concatAll (contentDeltas (body ++ [last]))).isEmpty then msgs
      else msgs ++
        [{ role := "assistant",
           content := concatAll (contentDeltas (body ++ [last])) }] := by
  have hcalls := processChunks_terminated_calls body last hbody hle
  have htext := processChunks_terminated_text body last hbody hle
  rw [flatMap_eq_nil _ _ hnt] at hcalls
  have hemp : (processChunks (body ++ [last])
      initAcc).tool_calls.isEmpty = true := by rw [hcalls]; rfl
  rw [run_turn_of_no_tool_calls reg msgs (body ++ [last]) chunks2 hemp,
    htext]

/-- Witness for C1's amended theorem at the spec §8 example stream
(`content "4"` then `content ""` with `done=true`). -/
theorem stream_response_append_witness :
    (run_turn (defaultRegistry trivialHandler)
        [{ role := "user", content := "What is 2+2?" }]
        [⟨false, none, some ⟨some "4", none⟩, false⟩,
         ⟨false, none, some ⟨some "", none⟩, true⟩] []).messages =
      [{ role := "user", content := "What is 2+2?" },
       { role := "assistant", content := "4" }] := by
  have h := stream_response_appends_assistant_message_iff_content_nonempty
    (defaultRegistry trivialHandler)
    [{ role := "user", content := "What is 2+2?" }] []
    [⟨false, none, some ⟨some "4", none⟩, false⟩]
    ⟨false, none, some ⟨some "", none⟩, true⟩
    (by intro c hc
        cases hc with
        | head => exact ⟨rfl, rfl⟩
        | tail _ hc => cases hc)
    rfl rfl
    (by intro c hc
        cases hc with
        | head => rfl
        | tail _ hc =>
            cases hc with
            | head => rfl
            | tail _ hc => cases hc)
  exact h.trans rfl

/-- C2: for every stream terminated by its final fragment and carrying at
least one tool call, the accumulated tool calls are dispatched in exactly
the order received (the order the fragments delivered them), one
tool-result message is appended per call, and the history handed to the
follow-up stream is the original history, then the assistant message
carrying the accumulated text and the tool-call list, then the tool-result
messages in dispatch order — so all results precede the follow-up stream
request. -/
theorem tool_calls_dispatched_in_order_before_final_stream
    (reg : ToolRegistry) (msgs : List Message) (chunks2 : List Chunk)
    (body : List Chunk) (last : Chunk)
    (hbody : ∀ c ∈ body, c.error = false ∧ c.done = false)
    (hle : last.error = false) (_hld : last.done = true)
    (htc : (body ++ [last]).flatMap chunkToolCalls ≠ []) :
    (run_turn reg msgs (body ++ [last]) chunks2).dispatches =
      ((body ++ [last]).flatMap chunkToolCalls).map callNameArgs ∧
    (run_turn reg msgs (body ++ [last]) chunks2).secondStreamInput =
      some (msgs ++
        [{ role := "assistant",
           content := concatAll (contentDeltas (body ++ [last])),
           tool_calls := some ((body ++ [last]).flatMap chunkToolCalls) }] ++
        ((body ++ [last]).flatMap chunkToolCalls).map (toolResultMsg reg)) ∧
    (run_turn reg msgs (body ++ [last]) chunks2).streamsOpened = 2 := by
  have hcalls := processChunks_terminated_calls body last hbody hle
  have htext := processChunks_terminated_text body last hbody hle
  have hne : (processChunks (body ++ [last])
      initAcc).tool_calls.isEmpty = false := by
    rw [hcalls]
    rcases hh : (body ++ [last]).flatMap chunkToolCalls with _ | ⟨a, l⟩
    · exact absurd hh htc
    · rfl
  rw [run_turn_of_tool_calls reg msgs (body ++ [last]) chunks2 hne,
    hcalls, htext]
  exact ⟨rfl, rfl, rfl⟩

/-- Witness for C2 at a one-fragment stream carrying one tool call. -/
theorem tool_dispatch_order_witness :
    (run_turn (defaultRegistry trivialHandler) [] [cryptoCallDoneChunk]
        []).dispatches = [("get_top_cryptocurrencies", [])] ∧
    (run_turn (defaultRegistry trivialHandler) [] [cryptoCallDoneChunk]
        []).secondStreamInput =
      some [{ role := "assistant", content := "",
              tool_calls := some [cryptoCall] },
            { role := "tool", content := "null" }] ∧
    (run_turn (defaultRegistry trivialHandler) [] [cryptoCallDoneChunk]
        []).streamsOpened = 2 := by
  have h := tool_calls_dispatched_in_order_before_final_stream
    (defaultRegistry trivialHandler) [] [] [] cryptoCallDoneChunk
    (by simp) rfl rfl
    (by intro hh
        exact List.cons_ne_nil cryptoCall []
          ((show ([] ++ [cryptoCallDoneChunk]).flatMap chunkToolCalls =
            [cryptoCall] from rfl).symm.trans hh))
  exact ⟨h.1.trans rfl, h.2.1.trans rfl, h.2.2⟩

/-- Counterexample for C3 as stated: a tool-call fragment followed by an
error fragment.  The loop `break`s on the error, but the accumulated tool
calls are still dispatched afterwards (`if tool_calls:` runs after the
loop), and a second stream is opened — contradicting "no tool dispatch
occurs and no second stream is opened ... regardless of any tool-call
fragments received before the error". -/
theorem error_after_tool_call_still_dispatches :
    cryptoCallChunk.error = false ∧
    chunkToolCalls cryptoCallChunk = [cryptoCall] ∧
    boomErrorChunk.error = true ∧
    (run_turn (defaultRegistry trivialHandler) []
        [cryptoCallChunk, boomErrorChunk] []).streamsOpened = 2 ∧
    (run_turn (defaultRegistry trivialHandler) []
        [cryptoCallChunk, boomErrorChunk] []).dispatches =
      [("get_top_cryptocurrencies", [])] :=
  ⟨rfl, rfl, rfl, rfl, rfl⟩

/-- C3 (amended): for every initial stream in which an error fragment
arrives with no tool-call fragments received before it, the orchestrator
appends a visible error annotation (the last display event is the error
note) and transitions directly to Idle: no tool dispatch occurs and no
second stream is opened for that turn.  (When tool-call fragments did
arrive before the error, the code dispatches them anyway — see the
counterexample.) -/
theorem error_fragment_without_prior_tool_calls_goes_idle
    (reg : ToolRegistry) (msgs : List Message)
    (pre : List Chunk) (e : Chunk) (post chunks2 : List Chunk)
    (hpre : ∀ c ∈ pre,
      c.error = false ∧ c.done = false ∧ chunkToolCalls c = [])
    (he : e.error = true) :
    (run_turn reg msgs (pre ++ e :: post) chunks2).streamsOpened = 1 ∧
    (run_turn reg msgs (pre ++ e :: post) chunks2).dispatches = [] ∧
    (run_turn reg msgs (pre ++ e :: post) chunks2).secondStreamInput =
      none ∧
    (run_turn reg msgs (pre ++ e :: post) chunks2).display.getLast? =
      some (.errorNote (errNoteText e)) := by
  have hacc : processChunks (pre ++ e :: post) initAcc =
      { pre.foldl (fun a c => procStep c a) initAcc with
        display :=
          (pre.foldl (fun a c => procStep c a) initAcc).display ++
            [.errorNote (errNoteText e)]
        errored := true } := by
    rw [processChunks_clean_append pre (e :: post) initAcc
      (fun c hc => ⟨(hpre c hc).1, (hpre c hc).2.1⟩)]
    simp [processChunks, he]
  have hcalls : (processChunks (pre ++ e :: post) initAcc).tool_calls
      = [] := by
    rw [hacc]
    show (pre.foldl (fun a c => procStep c a) initAcc).tool_calls = []
    rw [foldl_procStep_calls,
      flatMap_eq_nil _ _ (fun c hc => (hpre c hc).2.2)]
    rfl
  have hempty : (processChunks (pre ++ e :: post) initAcc).tool_calls.isEmpty
      = true := by rw [hcalls]; rfl
  rw [run_turn_of_no_tool_calls reg msgs (pre ++ e :: post) chunks2 hempty]
  refine ⟨rfl, rfl, rfl, ?_⟩
  show (processChunks (pre ++ e :: post) initAcc).display.getLast? = _
  rw [hacc]
  simp

/-- Witness for C3's amended theorem: a lone error fragment. -/
theorem error_fragment_idle_witness :
    (run_turn (defaultRegistry trivialHandler) [] [boomErrorChunk]
        []).streamsOpened = 1 ∧
    (run_turn (defaultRegistry trivialHandler) [] [boomErrorChunk]
        []).dispatches = [] ∧
    (run_turn (defaultRegistry trivialHandler) [] [boomErrorChunk]
        []).secondStreamInput = none ∧
    (run_turn (defaultRegistry trivialHandler) [] [boomErrorChunk]
        []).display.getLast? =
      some (.errorNote (errNoteText boomErrorChunk)) := by
  have h := error_fragment_without_prior_tool_calls_goes_idle
    (defaultRegistry trivialHandler) [] [] boomErrorChunk [] []
    (by simp) rfl
  simpa using h

/-- C7: whenever a turn reaches the post-tool-call resumption stream
(the initial stream accumulated at least one tool call), exactly two
streams are opened for that turn and the dispatched calls are exactly the
initial stream's accumulated calls — the equation does not mention the
second stream's fragments, so tool-call fragments arriving there are never
dispatched and never trigger a third stream; the turn terminates when the
second stream completes (`stream_final_response` never re-checks for tool
calls). -/
theorem final_stream_never_dispatches_tools
    (reg : ToolRegistry) (msgs : List Message)
    (chunks1 chunks2 : List Chunk)
    (h : (processChunks chunks1 initAcc).tool_calls ≠ []) :
    (run_turn reg msgs chunks1 chunks2).streamsOpened = 2 ∧
    (run_turn reg msgs chunks1 chunks2).dispatches =
      ((processChunks chunks1 initAcc).tool_calls).map callNameArgs := by
  have hne : (processChunks chunks1 initAcc).tool_calls.isEmpty = false := by
    rcases hh : (processChunks chunks1 initAcc).tool_calls with _ | ⟨a, l⟩
    · exact absurd hh h
    · rfl
  rw [run_turn_of_tool_calls reg msgs chunks1 chunks2 hne]
  exact ⟨rfl, rfl⟩

/-- Witness for C7: the second stream again carries a tool-call fragment,
yet only the first stream's single call is dispatched. -/
theorem final_stream_no_dispatch_witness :
    (run_turn (defaultRegistry trivialHandler) [] [cryptoCallDoneChunk]
        [cryptoCallDoneChunk]).streamsOpened = 2 ∧
    (run_turn (defaultRegistry trivialHandler) [] [cryptoCallDoneChunk]
        [cryptoCallDoneChunk]).dispatches =
      [("get_top_cryptocurrencies", [])] := by
  have h := final_stream_never_dispatches_tools
    (defaultRegistry trivialHandler) [] [cryptoCallDoneChunk]
    [cryptoCallDoneChunk]
    (by rw [show (processChunks [cryptoCallDoneChunk] initAcc).tool_calls =
          [cryptoCall] from rfl]
        exact List.cons_ne_nil _ _)
  exact ⟨h.1, h.2.trans rfl⟩

/-- C8: a submission with empty (stripped) input, or no selected model
(neither `current_model` nor the combo box value is a nonempty string), or
with a stream already in flight, is rejected before any network activity
— the outcome is not `started`, the only path that spawns the streaming
thread — and the message history is left untouched. -/
theorem send_message_rejects_without_history_mutation (st : AppState)
    (h : st.input_text.trim.isEmpty = true ∨
         (modelTruthy st.current_model = false ∧
          st.model_var.isEmpty = true) ∨
         st.is_streaming = true) :
    (send_message st).1.messages = st.messages ∧
    (send_message st).2.isStarted = false := by
  unfold send_message
  by_cases hin : st.input_text.trim.isEmpty
  · simp [hin, SendOutcome.isStarted]
  · rcases h with h | ⟨h1, h2⟩ | h
    · exact absurd h hin
    · simp [hin, h1, h2, modelTruthy_some, SendOutcome.isStarted]
    · by_cases hm : modelTruthy st.current_model
      · simp [hin, hm, h, SendOutcome.isStarted]
      · by_cases hv : st.model_var.isEmpty
        · simp [hin, hm, hv, modelTruthy_some, SendOutcome.isStarted]
        · simp [hin, hm, hv, h, modelTruthy_some, SendOutcome.isStarted]

/-- Witness for C8: a busy rejection (nonempty input, model selected,
stream in flight) leaves the one-message history intact. -/
theorem send_message_reject_witness :
    (send_message ⟨"hi", some "llama2", "llama2", true,
        [{ role := "user", content := "prev" }]⟩).1.messages =
      [{ role := "user", content := "prev" }] ∧
    (send_message ⟨"hi", some "llama2", "llama2", true,
        [{ role := "user", content := "prev" }]⟩).2.isStarted = false := by
  have h := send_message_rejects_without_history_mutation
    ⟨"hi", some "llama2", "llama2", true,
      [{ role := "user", content := "prev" }]⟩
    (Or.inr (Or.inr rfl))
  exact h

/-- Witness for C10: a tool call with no `function` key at all. -/
theorem malformed_tool_call_witness :
    toolResultMsg (defaultRegistry trivialHandler) ⟨none⟩ =
      { role := "tool", content := toolNotFoundPayload "unknown" } ∧
    (handle_tool_calls (defaultRegistry trivialHandler) [] [⟨none⟩] "").1 =
      [{ role := "assistant", content := "", tool_calls := some [⟨none⟩] },
       { role := "tool", content := toolNotFoundPayload "unknown" }] := by
  have h := malformed_tool_call_yields_unknown_error_result
    trivialHandler [] "" ⟨none⟩ (Or.inl rfl)
  simpa using h

end OllamaChat
